import Mathlib

/-!
Shallow embedding of the PyForks Trailforks client (PyForks/region.py and
PyForks/trailforks_user.py) and proofs about its claimed behavior.

HTTP traffic is modelled by passing the responses the remote host would
produce as explicit arguments (a page-indexed family of responses for the
paginated fetchers, a single response for one-shot calls).  Python
exceptions are modelled with `Except`: a `.error` value is a raised,
uncaught exception.  The authentication decorator defined in
PyForks/trailforks.py (a file not part of the sources examined here; per
the spec it only gates a method behind a login and then delegates) is
modelled as a pass-through: all operations below are the bodies that run
once the gate has delegated.
-/

namespace PyForks

/-- Modelled from the spec: the exception kinds of the PyForks.exceptions
module (whose source file is not included): `InvalidRegion` (region alias
not recognized) and `RegionLockedAPI` (HTTP 401 / locked API), plus
Python's built-in `ValueError`, which pandas raises for an empty concat
list or a mismatched column assignment and tuple unpacking raises on a
length mismatch. -/
inductive TFError where
  | InvalidRegion (msg : String)
  | RegionLockedAPI (msg : String)
  | ValueError (msg : String)
deriving DecidableEq

/-- One JSON response from the Trailforks host: an HTTP status code, the
`message` field, and the `data` payload. -/
structure Response (α : Type) where
  status_code : Nat
  message : String
  data : α
deriving DecidableEq

/-- Whether a modelled Python call returned normally (`.ok`) rather than
raising (`.error`). -/
def exceptOk {ε β : Type} : Except ε β → Bool
  | .ok _ => true
  | .error _ => false

/-- Python `str.strip()` on the character list of a string: drop ASCII
whitespace from both ends. -/
def pystrip (cs : List Char) : List Char :=
  ((cs.dropWhile Char.isWhitespace).reverse.dropWhile Char.isWhitespace).reverse

/-- Python `str.strip()` returning a string. -/
def pystripStr (s : String) : String := String.mk (pystrip s.data)

/-- Python `s.split(",")`: split on every comma; no empty-part filtering,
and the empty string yields one empty part. -/
def splitOnComma : List Char → List (List Char)
  | [] => [[]]
  | c :: rest =>
    if c = ',' then [] :: splitOnComma rest
    else
      match splitOnComma rest with
      | [] => [[c]]
      | p :: ps => (c :: p) :: ps

/-- Python tuple unpacking `a, b = l`: raises ValueError unless the list
has exactly two elements (no partial assignment happens on failure). -/
def unpack2 {β : Type} : List β → Except TFError (β × β)
  | [a, b] => .ok (a, b)
  | _ => .error (.ValueError "values to unpack")

/-- Python tuple unpacking `a, b, c = l`: raises ValueError unless the
list has exactly three elements (no partial assignment on failure). -/
def unpack3 {β : Type} : List β → Except TFError (β × β × β)
  | [a, b, c] => .ok (a, b, c)
  | _ => .error (.ValueError "values to unpack")

/-- Modelled behavior of `pandas.concat`: raises
ValueError("No objects to concatenate") on an empty list of frames,
otherwise concatenates the frames' rows in list order. -/
def pd_concat {α : Type} (dfs : List (List α)) : Except TFError (List α) :=
  match dfs with
  | [] => .error (.ValueError "No objects to concatenate")
  | _ => .ok dfs.flatten

/-! ## trailforks_user.py : TrailforksUser -/

/-- Match of the regex `view\/(\d{8})/$` anchored at the current position
(the start of `cs`): the whole remaining text must be exactly `view/`,
eight digits and a final `/` (the `$` anchor), and the captured digit
group is returned. -/
def matchHere (cs : List Char) : Option String :=
  if cs.length = 14 ∧ cs.take 5 = ['v', 'i', 'e', 'w', '/'] ∧ cs.drop 13 = ['/'] ∧
      ∀ c ∈ (cs.drop 5).take 8, c.isDigit = true then
    some (String.mk ((cs.drop 5).take 8))
  else none

/-- `re.search` for the pattern `view\/(\d{8})/$`: try the match at each
position of the link, left to right; `None` (here `none`) when no
position matches. -/
def searchRideId : List Char → Option String
  | [] => none
  | c :: rest =>
    match matchHere (c :: rest) with
    | some m => some m
    | none => searchRideId rest

/-- TrailforksUser._parse_ride_ids: for each link, search for the ride-id
pattern; on a match append the captured digit group, on no match the
`.group(1)` call on `None` raises AttributeError which the loop catches
and passes over, silently dropping the link. -/
def _parse_ride_ids : List String → List String
  | [] => []
  | link :: rest =>
    match searchRideId link.data with
    | some i => i :: _parse_ride_ids rest
    | none => _parse_ride_ids rest

/-- Specification-side description of the ride-id pattern: the link ends
in `view/`, exactly eight digits, and a final slash, and the id is that
digit group. -/
def RideLinkSpec (cs : List Char) (d : String) : Prop :=
  ∃ pre ds, cs = pre ++ ('v' :: 'i' :: 'e' :: 'w' :: '/' :: (ds ++ ['/'])) ∧
    ds.length = 8 ∧ (∀ c ∈ ds, c.isDigit = true) ∧ d = String.mk ds

/-- TrailforksUser.__get_user_city_state_country, over the text of the
profile page's location element (`none` when `soup.find` returned no
element, in which case `.getText()` raises AttributeError and the first
`except` leaves the three defaults).  On a found element: strip the text,
split on commas, and try the two-element unpack; on its ValueError try
the three-element unpack with the middle part discarded; on any further
exception assign the stripped raw string to `state` only. -/
def __get_user_city_state_country (location_elem : Option String) :
    String × String × String :=
  match location_elem with
  | none => ("unknown", "unknown", "unknown")
  | some location =>
    match unpack2 (splitOnComma (pystrip location.data)) with
    | .ok (city, state) => (String.mk (pystrip city), String.mk (pystrip state), "USA")
    | .error _ =>
      match unpack3 (splitOnComma (pystrip location.data)) with
      | .ok (city, _, country) =>
        (String.mk (pystrip city), "unknown", String.mk (pystrip country))
      | .error _ => ("unknown", String.mk (pystrip location.data), "unknown")

/-- TrailforksUser.rescan_ridelogs_for_badges: one GET per ride id (the
URI is built from `id.strip()`), in list order, inside a single
try/except; the first raising request aborts the remaining ids and the
whole call returns False, otherwise True.  The request outcome is the
argument `request` (`.error` = the transport raised).  The first
component instruments the ids for which a request was actually issued,
in order, so the abort property can be stated. -/
def rescan_ridelogs_for_badges (request : String → Except TFError Unit) :
    List String → List String × Bool
  | [] => ([], true)
  | id :: rest =>
    match request (pystripStr id) with
    | .error _ => ([id], false)
    | .ok _ =>
      let out := rescan_ridelogs_for_badges request rest
      (id :: out.1, out.2)

/-- TrailforksUser.get_user_all_ridelogs, with its local file-system
effect made explicit.  `fs` maps a file name to its content; `page_text`
is the text of the fetched ridelog page; `tables` is the result of
`pd.read_html(page_text)` (pandas raises ValueError when the page holds
no table, and the write to "data.html" comes after that call); and
`ridelog_links` is the link list scraped by `__get_ridelog_links`.  The
column assignments `df["ridelog_link"] = links` and
`df["ride_id"] = ids` raise ValueError when the list length differs from
the frame's row count (pandas semantics); both come after the write.
Returns the file system after the call and the call's outcome. -/
def get_user_all_ridelogs {α : Type} (fs : String → Option String)
    (page_text : String) (tables : List (List α)) (ridelog_links : List String) :
    (String → Option String) × Except TFError (List ((α × String) × String)) :=
  match tables with
  | [] => (fs, .error (.ValueError "No tables found"))
  | df :: _ =>
    let fs2 : String → Option String :=
      fun name => if name = "data.html" then some page_text else fs name
    if ridelog_links.length = df.length then
      let df2 := df.zip ridelog_links
      let ride_ids := _parse_ride_ids ridelog_links
      if ride_ids.length = df.length then
        (fs2, .ok (df2.zip ride_ids))
      else (fs2, .error (.ValueError "Length of values does not match length of index"))
    else (fs2, .error (.ValueError "Length of values does not match length of index"))

/-! ## region.py : Region -/

/-- Region.is_valid_region: query the regions endpoint filtered by the
alias; `r_json_data` is the response's `data` array; `False` exactly when
it is empty. -/
def is_valid_region {γ : Type} (r_json_data : List γ) : Bool :=
  if r_json_data.length = 0 then false else true

/-- Region.check_region: wrapper over is_valid_region which raises
InvalidRegion (in the original design a fatal condition) for an invalid
alias and returns True otherwise. -/
def check_region {γ : Type} (region : String) (r_json_data : List γ) :
    Except TFError Bool :=
  if !(is_valid_region r_json_data) then
    .error (.InvalidRegion ("[!] " ++ region ++ " is not a valid Trailforks Region."))
  else .ok true

/-- Region._handle_status_code: raise RegionLockedAPI on HTTP 401,
otherwise do nothing. -/
def _handle_status_code (status_code : Nat) (message : String) :
    Except TFError Unit :=
  if status_code = 401 then
    .error (.RegionLockedAPI ("[!] Error: " ++ message))
  else .ok ()

/-- The one field of the region-info response consumed by the modelled
operations: `data["ridden"]`, the region's reported total ride count
(`int(region_info["ridden"])`). The other response fields feed only the
returned metrics dictionary, which no claim touches. -/
structure RegionInfoData where
  ridden : Nat
deriving DecidableEq

/-- Region.get_region_info, reduced to its control flow: check the
region, issue the single region request, apply the HTTP-401 check, and
return the response data. -/
def get_region_info {γ : Type} (region : String) (regions_data : List γ)
    (info : Response RegionInfoData) : Except TFError RegionInfoData := do
  let _ ← check_region region regions_data
  let _ ← _handle_status_code info.status_code info.message
  return info.data

/-- Number of iterations of the ride-counts while-loop for a reported
total of `m`: the counter advances by 500 (rows_per_pull) per iteration
while it is below `m`. -/
def pagesNeeded (m : Nat) : Nat := (m + 499) / 500

/-- The while-loop of Region.get_region_ridecounts: while
`enumerated_results < total_ridelogs`, fetch the next page, apply the
401 check (a raise abandons everything accumulated), append the page's
`data` rows, and advance `page_number` by 1 and `enumerated_results` by
500.  Returns the requested page numbers in request order together with
the accumulated page row-lists (or the raised error). -/
def ridecountsLoop {α : Type} (page_resp : Nat → Response (List α))
    (total_ridelogs page_number enumerated_results : Nat) :
    List Nat × Except TFError (List (List α)) :=
  if h : enumerated_results < total_ridelogs then
    let r := page_resp page_number
    match _handle_status_code r.status_code r.message with
    | .error e => ([page_number], .error e)
    | .ok _ =>
      let rest := ridecountsLoop page_resp total_ridelogs (page_number + 1)
        (enumerated_results + 500)
      (page_number :: rest.1, rest.2.map (fun dfs => r.data :: dfs))
  else ([], .ok [])
termination_by total_ridelogs - enumerated_results
decreasing_by omega

/-- Day key of an epoch timestamp.  The source computes
`pd.to_datetime(created, unit="s").dt.strftime("%Y-%m-%d")`; for the
non-negative epochs at hand two timestamps get the same `%Y-%m-%d` (UTC)
string exactly when they lie in the same UTC day, and the lexicographic
order of the strings is the numeric order of the day numbers, so the
group key is modelled by the day number `created / 86400`. -/
def dayOf (created : Nat) : Nat := created / 86400

/-- Group keys of `df.groupby(["date"], sort=False)`: the distinct
values in first-occurrence order. -/
def firstKeys : List Nat → List Nat
  | [] => []
  | d :: rest => d :: firstKeys (rest.filter (fun x => x ≠ d))
termination_by l => l.length
decreasing_by simpa using Nat.lt_succ_of_le (List.length_filter_le _ _)

/-- The grouped count table `groupby(["date"], sort=False)["date"].count()`:
one row per distinct day, in first-occurrence order, each with the number
of input rows carrying that day. -/
def groupCounts (days : List Nat) : List (Nat × Nat) :=
  (firstKeys days).map (fun d => (d, days.count d))

/-- Insertion step of the descending sort on the day key
(`sort_index(ascending=False)`). -/
def insertDesc (p : Nat × Nat) : List (Nat × Nat) → List (Nat × Nat)
  | [] => [p]
  | q :: qs => if q.1 ≤ p.1 then p :: q :: qs else q :: insertDesc p qs

/-- The `sort_index(ascending=False)` step: sort the count table by day
key, descending (the keys are distinct, so any correct sort gives the
same table). -/
def sortDesc : List (Nat × Nat) → List (Nat × Nat)
  | [] => []
  | p :: ps => insertDesc p (sortDesc ps)

/-- Civil date (year, month, day) of a day number counted from
1970-01-01, the standard days-to-civil algorithm; models the pandas
`dt.year` / `dt.month` / `dt.day` accessors. -/
def civilFromDays (z0 : Nat) : Nat × Nat × Nat :=
  let z := z0 + 719468
  let era := z / 146097
  let doe := z % 146097
  let yoe := (doe - doe / 1460 + doe / 36524 - doe / 146096) / 365
  let y := yoe + era * 400
  let doy := doe - (365 * yoe + yoe / 4 - yoe / 100)
  let mp := (5 * doy + 2) / 153
  let d := doy - (153 * mp + 2) / 5 + 1
  let m := if mp < 10 then mp + 3 else mp - 9
  (if m ≤ 2 then y + 1 else y, m, d)

/-- Weekday names as produced by pandas `dt.day_name()`, indexed by the
`dt.weekday` number (Monday = 0). -/
def dayName (w : Nat) : String :=
  match w with
  | 0 => "Monday" | 1 => "Tuesday" | 2 => "Wednesday" | 3 => "Thursday"
  | 4 => "Friday" | 5 => "Saturday" | 6 => "Sunday" | _ => ""

/-- Python `calendar.month_abbr[m]` (index 0 is the empty string). -/
def monthAbbr (m : Nat) : String :=
  match m with
  | 1 => "Jan" | 2 => "Feb" | 3 => "Mar" | 4 => "Apr" | 5 => "May" | 6 => "Jun"
  | 7 => "Jul" | 8 => "Aug" | 9 => "Sep" | 10 => "Oct" | 11 => "Nov" | 12 => "Dec"
  | _ => ""

/-- One row of the enriched ride-count table returned by
Region.get_region_ridecounts: the group day, its ride count, and the
calendar fields Region.__enrich_ridecounts derives from the day. -/
structure EnrichedRow where
  date : Nat
  rides : Nat
  year : Nat
  month : Nat
  day : Nat
  weekday_num : Nat
  weekday : String
  month_name : String
deriving DecidableEq

/-- Region.__enrich_ridecounts on one (day, rides) row: parse the date
and add year, month, day, weekday number (1970-01-01 was a Thursday, so
Monday-based weekday is (dayNumber + 3) mod 7), weekday name and month
abbreviation, all functions of the day value. -/
def enrichRow (p : Nat × Nat) : EnrichedRow :=
  let c := civilFromDays p.1
  { date := p.1
    rides := p.2
    year := c.1
    month := c.2.1
    day := c.2.2
    weekday_num := (p.1 + 3) % 7
    weekday := dayName ((p.1 + 3) % 7)
    month_name := monthAbbr c.2.1 }

/-- The aggregation stage of Region.get_region_ridecounts applied to the
concatenated fetched rows (their `created` epochs): derive the day of
each row, group by day with per-day counts, sort by day descending, and
enrich each row with the derived calendar fields. -/
def ridecounts_table (rows : List Nat) : List EnrichedRow :=
  (sortDesc (groupCounts (rows.map dayOf))).map enrichRow

/-- Region.get_region_ridecounts: check the region, obtain the region
info and its reported total ride count, run the paginated fetch loop
(500 rows per pull, pages from 0), concatenate the pages
(`pd.concat` raises on an empty list), and aggregate into the enriched
per-day count table.  The first component records the requested page
numbers in request order. -/
def get_region_ridecounts {γ : Type} (region : String) (regions_data : List γ)
    (info : Response RegionInfoData) (page_resp : Nat → Response (List Nat)) :
    List Nat × Except TFError (List EnrichedRow) :=
  match check_region region regions_data with
  | .error e => ([], .error e)
  | .ok _ =>
    match get_region_info region regions_data info with
    | .error e => ([], .error e)
    | .ok region_info =>
      let total_ridelogs := region_info.ridden
      let out := ridecountsLoop page_resp total_ridelogs 0 0
      (out.1,
        match out.2 with
        | .error e => .error e
        | .ok dfs =>
          match pd_concat dfs with
          | .error e => .error e
          | .ok rows => .ok (ridecounts_table rows))

/-- Region.get_all_region_trails: check the region, issue the single
trails request, apply the HTTP-401 check, and return the flattened
`data` rows. -/
def get_all_region_trails {γ α : Type} (region : String) (regions_data : List γ)
    (r : Response (List α)) : Except TFError (List α) := do
  let _ ← check_region region regions_data
  let _ ← _handle_status_code r.status_code r.message
  return r.data

/-- The `for i in range(0, pages)` loop of Region.get_all_region_ridelogs:
`count` pages remain to fetch and `page_number` is the next page; each
iteration fetches, applies the 401 check (a raise abandons everything
accumulated) and appends the page's rows.  Returns the requested page
numbers in request order and the accumulated page row-lists. -/
def ridelogsLoop {α : Type} (page_resp : Nat → Response (List α)) :
    Nat → Nat → List Nat × Except TFError (List (List α))
  | 0, _ => ([], .ok [])
  | count + 1, page_number =>
    let r := page_resp page_number
    match _handle_status_code r.status_code r.message with
    | .error e => ([page_number], .error e)
    | .ok _ =>
      let rest := ridelogsLoop page_resp count (page_number + 1)
      (page_number :: rest.1, rest.2.map (fun dfs => r.data :: dfs))

/-- Region.get_all_region_ridelogs: check the region, fetch the
caller-supplied number of pages (`range(0, pages)` is empty for a
non-positive `pages`, hence `pages.toNat`), concatenate the pages
(`pd.concat` raises on an empty list), and add the per-row date column.
`created` reads a row's `created` epoch field and `strf` models
`datetime.fromtimestamp(epoch).strftime("%m/%d/%Y")`, kept abstract
because `fromtimestamp` depends on the ambient local timezone. -/
def get_all_region_ridelogs {γ α : Type} (region : String) (regions_data : List γ)
    (created : α → Nat) (strf : Nat → String)
    (page_resp : Nat → Response (List α)) (pages : Int) :
    List Nat × Except TFError (List (α × String)) :=
  match check_region region regions_data with
  | .error e => ([], .error e)
  | .ok _ =>
    let out := ridelogsLoop page_resp pages.toNat 0
    (out.1,
      match out.2 with
      | .error e => .error e
      | .ok dfs =>
        match pd_concat dfs with
        | .error e => .error e
        | .ok rows => .ok (rows.map (fun row => (row, strf (created row)))))

/-- The while-loop of Region.get_all_trailforks_regions: while
`enumerated_results ≤ number_of_regions` (a hardcoded 40000 at the call
site), fetch the next page of 500, apply the 401 check, and append the
page's rows.  Returns the requested page numbers in request order and
the accumulated page row-lists. -/
def allRegionsLoop {α : Type} (page_resp : Nat → Response (List α))
    (number_of_regions page_number enumerated_results : Nat) :
    List Nat × Except TFError (List (List α)) :=
  if h : enumerated_results ≤ number_of_regions then
    let r := page_resp page_number
    match _handle_status_code r.status_code r.message with
    | .error e => ([page_number], .error e)
    | .ok _ =>
      let rest := allRegionsLoop page_resp number_of_regions (page_number + 1)
        (enumerated_results + 500)
      (page_number :: rest.1, rest.2.map (fun dfs => r.data :: dfs))
  else ([], .ok [])
termination_by number_of_regions + 1 - enumerated_results
decreasing_by omega

/-- Region.get_all_trailforks_regions: loop while the accumulated count
is at most the hardcoded estimate of 40000 remote records, then
concatenate the pages. -/
def get_all_trailforks_regions {α : Type} (page_resp : Nat → Response (List α)) :
    List Nat × Except TFError (List α) :=
  let number_of_regions := 40000
  let out := allRegionsLoop page_resp number_of_regions 0 0
  (out.1,
    match out.2 with
    | .error e => .error e
    | .ok dfs =>
      match pd_concat dfs with
      | .error e => .error e
      | .ok rows => .ok rows)

/-! ## Concrete fixtures used by the witness theorems -/

/-- A fixture page family with no 401 and two rides per page. -/
def okPages : Nat → Response (List Nat) :=
  fun _ => ⟨200, "ok", [0, 86400]⟩

/-- A fixture page family whose first 401 is page 1. -/
def lockedPages : Nat → Response (List Nat) :=
  fun p => if p = 1 then ⟨401, "Wrong App ID", [5]⟩ else ⟨200, "ok", [0]⟩

/-- A fixture region-info response reporting 1200 total rides. -/
def infoFix : Response RegionInfoData := ⟨200, "ok", ⟨1200⟩⟩

/-- A fixture region-info response reporting zero total rides. -/
def infoZero : Response RegionInfoData := ⟨200, "ok", ⟨0⟩⟩

/-- A fixture regions-query data array with one record. -/
def rdataFix : List Nat := [7]

/-- A fixture rescan transport that raises exactly on ride id "2". -/
def reqFix : String → Except TFError Unit :=
  fun s => if s = "2" then .error (.ValueError "ConnectionError") else .ok ()

/-- A fixture `created` accessor: the row is its own epoch. -/
def createdFix : Nat → Nat := fun n => n

/-- A fixture date formatter. -/
def strfFix : Nat → String := fun _ => "01/01/1970"

/-- A fixture trails response locked with HTTP 401. -/
def trailsLocked : Response (List Nat) := ⟨401, "Wrong App ID", []⟩

end PyForks

namespace PyForks

/-! ## Helper lemmas -/

theorem handle_ok (s : Nat) (m : String) (h : s ≠ 401) :
    _handle_status_code s m = .ok () := by
  unfold _handle_status_code
  simp [h]

theorem handle_401 (s : Nat) (m : String) (h : s = 401) :
    _handle_status_code s m = .error (.RegionLockedAPI ("[!] Error: " ++ m)) := by
  unfold _handle_status_code
  simp [h]

theorem check_region_ok {γ : Type} (region : String) (d : List γ)
    (h : is_valid_region d = true) : check_region region d = .ok true := by
  unfold check_region
  simp [h]

theorem check_region_err {γ : Type} (region : String) (d : List γ)
    (h : is_valid_region d = false) :
    check_region region d =
      .error (.InvalidRegion ("[!] " ++ region ++ " is not a valid Trailforks Region.")) := by
  unfold check_region
  simp [h]

theorem get_region_info_ok {γ : Type} (region : String) (d : List γ)
    (info : Response RegionInfoData) (hv : is_valid_region d = true)
    (hs : info.status_code ≠ 401) :
    get_region_info region d info = .ok info.data := by
  unfold get_region_info
  rw [check_region_ok region d hv, handle_ok _ _ hs]
  rfl

theorem unpack2_err {β : Type} (l : List β) (h : l.length ≠ 2) :
    unpack2 l = .error (.ValueError "values to unpack") := by
  match l with
  | [] => rfl
  | [_] => rfl
  | [_, _] => exact absurd rfl h
  | _ :: _ :: _ :: _ => rfl

theorem unpack3_err {β : Type} (l : List β) (h : l.length ≠ 3) :
    unpack3 l = .error (.ValueError "values to unpack") := by
  match l with
  | [] => rfl
  | [_] => rfl
  | [_, _] => rfl
  | [_, _, _] => exact absurd rfl h
  | _ :: _ :: _ :: _ :: _ => rfl

theorem ridecountsLoop_ok {α : Type} (page_resp : Nat → Response (List α))
    (h401 : ∀ p, (page_resp p).status_code ≠ 401) :
    ∀ m total enumerated page, total - enumerated = m →
      ridecountsLoop page_resp total page enumerated =
        (List.range' page (pagesNeeded m),
         Except.ok ((List.range' page (pagesNeeded m)).map
           (fun p => (page_resp p).data))) := by
  intro m
  induction m using Nat.strong_induction_on with
  | _ m ih =>
    intro total enumerated page hm
    rw [ridecountsLoop]
    split
    case isTrue h =>
      simp only [handle_ok _ _ (h401 page)]
      have hlt : total - (enumerated + 500) < m := by omega
      rw [ih _ hlt total (enumerated + 500) (page + 1) rfl]
      have hpn : pagesNeeded m = pagesNeeded (total - (enumerated + 500)) + 1 := by
        unfold pagesNeeded; omega
      rw [hpn, List.range'_succ]
      simp [Except.map]
    case isFalse h =>
      have h0 : m = 0 := by omega
      subst h0
      have hz : pagesNeeded 0 = 0 := by unfold pagesNeeded; omega
      simp [hz]

theorem ridecountsLoop_401 {α : Type} (page_resp : Nat → Response (List α)) :
    ∀ j total enumerated page,
      (∀ q, q < j → (page_resp (page + q)).status_code ≠ 401) →
      (page_resp (page + j)).status_code = 401 →
      j < pagesNeeded (total - enumerated) →
      ridecountsLoop page_resp total page enumerated =
        (List.range' page (j + 1),
         .error (.RegionLockedAPI ("[!] Error: " ++ (page_resp (page + j)).message))) := by
  intro j
  induction j with
  | zero =>
    intro total enumerated page _ hj hlt
    have htot : enumerated < total := by
      unfold pagesNeeded at hlt; omega
    rw [ridecountsLoop, dif_pos htot]
    have hj0 : (page_resp page).status_code = 401 := by simpa using hj
    simp only [handle_401 _ _ hj0]
    simp [List.range'_succ]
  | succ j ih =>
    intro total enumerated page hq hj hlt
    have htot : enumerated < total := by
      unfold pagesNeeded at hlt; omega
    rw [ridecountsLoop, dif_pos htot]
    have h0 : (page_resp page).status_code ≠ 401 := by simpa using hq 0 (by omega)
    simp only [handle_ok _ _ h0]
    have hq2 : ∀ q, q < j → (page_resp ((page + 1) + q)).status_code ≠ 401 := by
      intro q hqj
      have := hq (q + 1) (by omega)
      have e : page + (q + 1) = (page + 1) + q := by omega
      rwa [e] at this
    have hj2 : (page_resp ((page + 1) + j)).status_code = 401 := by
      have e : (page + 1) + j = page + (j + 1) := by omega
      rw [e]; exact hj
    have hlt2 : j < pagesNeeded (total - (enumerated + 500)) := by
      unfold pagesNeeded at hlt ⊢; omega
    rw [ih total (enumerated + 500) (page + 1) hq2 hj2 hlt2]
    have e : (page + 1) + j = page + (j + 1) := by omega
    simp [Except.map, e, List.range'_succ]

theorem ridelogsLoop_ok {α : Type} (page_resp : Nat → Response (List α)) :
    ∀ count page, (∀ q, q < count → (page_resp (page + q)).status_code ≠ 401) →
      ridelogsLoop page_resp count page =
        (List.range' page count,
         Except.ok ((List.range' page count).map (fun p => (page_resp p).data))) := by
  intro count
  induction count with
  | zero => intro page _; simp [ridelogsLoop]
  | succ count ih =>
    intro page hq
    have h0 : (page_resp page).status_code ≠ 401 := by simpa using hq 0 (by omega)
    rw [ridelogsLoop]
    simp only [handle_ok _ _ h0]
    have hq2 : ∀ q, q < count → (page_resp ((page + 1) + q)).status_code ≠ 401 := by
      intro q hqc
      have := hq (q + 1) (by omega)
      have e : page + (q + 1) = (page + 1) + q := by omega
      rwa [e] at this
    rw [ih (page + 1) hq2]
    rw [List.range'_succ]
    simp [Except.map]

theorem ridelogsLoop_401 {α : Type} (page_resp : Nat → Response (List α)) :
    ∀ j count page,
      (∀ q, q < j → (page_resp (page + q)).status_code ≠ 401) →
      (page_resp (page + j)).status_code = 401 →
      j < count →
      ridelogsLoop page_resp count page =
        (List.range' page (j + 1),
         .error (.RegionLockedAPI ("[!] Error: " ++ (page_resp (page + j)).message))) := by
  intro j
  induction j with
  | zero =>
    intro count page _ hj hlt
    obtain ⟨c, rfl⟩ : ∃ c, count = c + 1 := ⟨count - 1, by omega⟩
    rw [ridelogsLoop]
    have hj0 : (page_resp page).status_code = 401 := by simpa using hj
    simp only [handle_401 _ _ hj0]
    simp [List.range'_succ]
  | succ j ih =>
    intro count page hq hj hlt
    obtain ⟨c, rfl⟩ : ∃ c, count = c + 1 := ⟨count - 1, by omega⟩
    rw [ridelogsLoop]
    have h0 : (page_resp page).status_code ≠ 401 := by simpa using hq 0 (by omega)
    simp only [handle_ok _ _ h0]
    have hq2 : ∀ q, q < j → (page_resp ((page + 1) + q)).status_code ≠ 401 := by
      intro q hqj
      have := hq (q + 1) (by omega)
      have e : page + (q + 1) = (page + 1) + q := by omega
      rwa [e] at this
    have hj2 : (page_resp ((page + 1) + j)).status_code = 401 := by
      have e : (page + 1) + j = page + (j + 1) := by omega
      rw [e]; exact hj
    rw [ih c (page + 1) hq2 hj2 (by omega)]
    have e : (page + 1) + j = page + (j + 1) := by omega
    simp [Except.map, e, List.range'_succ]

theorem allRegionsLoop_eq {α : Type} (page_resp : Nat → Response (List α)) :
    ∀ m bound enumerated page, bound + 1 - enumerated = m →
      allRegionsLoop page_resp bound page enumerated =
        ridecountsLoop page_resp (bound + 1) page enumerated := by
  intro m
  induction m using Nat.strong_induction_on with
  | _ m ih =>
    intro bound enumerated page hm
    rw [allRegionsLoop, ridecountsLoop]
    by_cases h : enumerated ≤ bound
    · rw [dif_pos h, dif_pos (by omega)]
      have := ih (bound + 1 - (enumerated + 500)) (by omega) bound (enumerated + 500)
        (page + 1) rfl
      simp only [this]
    · rw [dif_neg h, dif_neg (by omega)]

/-! ## Claim C2: ride-counts pagination terminates at the reported total -/

/-- Claim C2: for a valid region whose region-info reports total ride
count `ridden`, the ride-counts fetch requests exactly the pages
0, 1, ..., ceil(ridden / 500) - 1 in ascending order (500 rows per page),
i.e. the loop runs for the least page count n with 500 * n ≥ ridden: the
accumulated row counter reaches the reported total exactly at
termination, and every earlier iteration still had fewer rows than the
total. -/
theorem claim_C2 {γ : Type} (region : String) (regions_data : List γ)
    (info : Response RegionInfoData) (page_resp : Nat → Response (List Nat))
    (hv : is_valid_region regions_data = true) (hinfo : info.status_code ≠ 401)
    (h401 : ∀ p, (page_resp p).status_code ≠ 401) :
    (get_region_ridecounts region regions_data info page_resp).1 =
      List.range (pagesNeeded info.data.ridden) ∧
    info.data.ridden ≤ 500 * pagesNeeded info.data.ridden ∧
    (∀ k, k < pagesNeeded info.data.ridden → 500 * k < info.data.ridden) := by
  refine ⟨?_, by unfold pagesNeeded; omega, fun k hk => by unfold pagesNeeded at hk; omega⟩
  simp only [get_region_ridecounts, check_region_ok region regions_data hv,
    get_region_info_ok region regions_data info hv hinfo]
  rw [ridecountsLoop_ok page_resp h401 info.data.ridden info.data.ridden 0 0 (by omega)]
  rw [List.range_eq_range']

/-- Witness for claim C2: a region with 1200 reported rides needs
pagesNeeded 1200 = 3 pages. -/
theorem claim_C2_witness :
    is_valid_region rdataFix = true ∧ pagesNeeded infoFix.data.ridden = 3 ∧
    (get_region_ridecounts "buck-hill-52165" rdataFix infoFix okPages).1 = List.range 3 := by
  refine ⟨by decide, by decide, ?_⟩
  have h401 : ∀ p, (okPages p).status_code ≠ 401 := by intro p; simp [okPages]
  have := (claim_C2 "buck-hill-52165" rdataFix infoFix okPages (by decide) (by decide) h401).1
  simpa using this

/-! ## Claim C3: HTTP 401 aborts every fetcher with no partial result -/

/-- Claim C3: in each of the four fetchers (ride counts, trails, ride
logs, all regions), when the first fetched page carrying HTTP status 401
is page p (for trails the single response), the operation raises
RegionLockedAPI immediately after requesting pages 0..p and returns no
rows: the result is the raised error, so every row accumulated from the
earlier pages of that call is discarded. -/
theorem claim_C3 :
    (∀ (γ : Type) (region : String) (regions_data : List γ)
        (info : Response RegionInfoData) (page_resp : Nat → Response (List Nat)) (p : Nat),
      is_valid_region regions_data = true → info.status_code ≠ 401 →
      (∀ q, q < p → (page_resp q).status_code ≠ 401) →
      (page_resp p).status_code = 401 →
      p < pagesNeeded info.data.ridden →
      get_region_ridecounts region regions_data info page_resp =
        (List.range (p + 1),
         .error (.RegionLockedAPI ("[!] Error: " ++ (page_resp p).message)))) ∧
    (∀ (γ α : Type) (region : String) (regions_data : List γ) (r : Response (List α)),
      is_valid_region regions_data = true → r.status_code = 401 →
      get_all_region_trails region regions_data r =
        .error (.RegionLockedAPI ("[!] Error: " ++ r.message))) ∧
    (∀ (γ α : Type) (region : String) (regions_data : List γ) (created : α → Nat)
        (strf : Nat → String) (page_resp : Nat → Response (List α)) (pages : Int) (p : Nat),
      is_valid_region regions_data = true →
      (∀ q, q < p → (page_resp q).status_code ≠ 401) →
      (page_resp p).status_code = 401 →
      p < pages.toNat →
      get_all_region_ridelogs region regions_data created strf page_resp pages =
        (List.range (p + 1),
         .error (.RegionLockedAPI ("[!] Error: " ++ (page_resp p).message)))) ∧
    (∀ (α : Type) (page_resp : Nat → Response (List α)) (p : Nat),
      (∀ q, q < p → (page_resp q).status_code ≠ 401) →
      (page_resp p).status_code = 401 →
      p < 81 →
      get_all_trailforks_regions page_resp =
        (List.range (p + 1),
         .error (.RegionLockedAPI ("[!] Error: " ++ (page_resp p).message)))) := by
  refine ⟨?_, ?_, ?_, ?_⟩
  · intro γ region regions_data info page_resp p hv hinfo hmin hp hlt
    simp only [get_region_ridecounts, check_region_ok region regions_data hv,
      get_region_info_ok region regions_data info hv hinfo]
    rw [ridecountsLoop_401 page_resp p info.data.ridden 0 0
      (fun q hq => by simpa using hmin q hq) (by simpa using hp) (by simpa using hlt)]
    simp [List.range_eq_range']
  · intro γ α region regions_data r hv h401
    unfold get_all_region_trails
    rw [check_region_ok region regions_data hv, handle_401 _ _ h401]
    rfl
  · intro γ α region regions_data created strf page_resp pages p hv hmin hp hlt
    simp only [get_all_region_ridelogs, check_region_ok region regions_data hv]
    rw [ridelogsLoop_401 page_resp p pages.toNat 0
      (fun q hq => by simpa using hmin q hq) (by simpa using hp) hlt]
    simp [List.range_eq_range']
  · intro α page_resp p hmin hp hlt
    simp only [get_all_trailforks_regions]
    rw [allRegionsLoop_eq page_resp (40000 + 1 - 0) 40000 0 0 rfl]
    rw [ridecountsLoop_401 page_resp p (40000 + 1) 0 0
      (fun q hq => by simpa using hmin q hq) (by simpa using hp)
      (by unfold pagesNeeded; omega)]
    simp [List.range_eq_range']

/-- Witness for claim C3: with the first 401 on page 1 of a 3-page
region, ride counts stop after pages 0 and 1 and return only the raised
error; a 401 trails response raises as well. -/
theorem claim_C3_witness :
    (lockedPages 1).status_code = 401 ∧
    get_region_ridecounts "buck-hill-52165" rdataFix infoFix lockedPages =
      (List.range 2, .error (.RegionLockedAPI "[!] Error: Wrong App ID")) ∧
    get_all_region_trails "buck-hill-52165" rdataFix trailsLocked =
      .error (.RegionLockedAPI "[!] Error: Wrong App ID") ∧
    get_all_region_ridelogs "buck-hill-52165" rdataFix createdFix strfFix lockedPages 3 =
      (List.range 2, .error (.RegionLockedAPI "[!] Error: Wrong App ID")) ∧
    get_all_trailforks_regions lockedPages =
      (List.range 2, .error (.RegionLockedAPI "[!] Error: Wrong App ID")) := by
  have hmin : ∀ q, q < 1 → (lockedPages q).status_code ≠ 401 := by
    intro q hq
    have hq0 : q = 0 := by omega
    subst hq0
    decide
  refine ⟨by decide, ?_, ?_, ?_, ?_⟩
  · exact claim_C3.1 Nat "buck-hill-52165" rdataFix infoFix lockedPages 1
      (by decide) (by decide) hmin (by decide) (by decide)
  · exact claim_C3.2.1 Nat Nat "buck-hill-52165" rdataFix trailsLocked (by decide) (by decide)
  · exact claim_C3.2.2.1 Nat Nat "buck-hill-52165" rdataFix createdFix strfFix lockedPages 3 1
      (by decide) hmin (by decide) (by decide)
  · exact claim_C3.2.2.2 Nat lockedPages 1 hmin (by decide) (by decide)

/-! ## Claim C8: ride-log fetch requests exactly the caller-supplied pages -/

/-- Claim C8: for a valid region and a caller-supplied page count
pages ≥ 1, the region ride-log fetch requests exactly pages 0..pages-1 in
ascending order, whether or not the pages carry data, and the returned
table is the concatenation of the page results in that order (each row
paired with its derived date column). -/
theorem claim_C8 {γ α : Type} (region : String) (regions_data : List γ)
    (created : α → Nat) (strf : Nat → String)
    (page_resp : Nat → Response (List α)) (pages : Int)
    (hv : is_valid_region regions_data = true) (hp : 1 ≤ pages)
    (h401 : ∀ q, (page_resp q).status_code ≠ 401) :
    get_all_region_ridelogs region regions_data created strf page_resp pages =
      (List.range pages.toNat,
       .ok ((((List.range pages.toNat).map (fun i => (page_resp i).data)).flatten).map
         (fun row => (row, strf (created row))))) := by
  simp only [get_all_region_ridelogs, check_region_ok region regions_data hv]
  rw [ridelogsLoop_ok page_resp pages.toNat 0 (fun q _ => h401 (0 + q))]
  obtain ⟨k, hk⟩ : ∃ k, pages.toNat = k + 1 := ⟨pages.toNat - 1, by omega⟩
  rw [List.range_eq_range']
  rw [hk, List.range'_succ]
  simp [pd_concat]

/-- Witness for claim C8: two pages of the fixture family are fetched
as pages 0 and 1 and concatenated in that order. -/
theorem claim_C8_witness :
    is_valid_region rdataFix = true ∧ ((1 : Int) ≤ 2) ∧
    get_all_region_ridelogs "buck-hill-52165" rdataFix createdFix strfFix okPages 2 =
      (List.range (2 : Int).toNat,
       .ok ((((List.range (2 : Int).toNat).map (fun i => (okPages i).data)).flatten).map
         (fun row => (row, strfFix (createdFix row))))) := by
  have h401 : ∀ q, (okPages q).status_code ≠ 401 := by intro q; simp [okPages]
  exact ⟨by decide, by omega,
    claim_C8 "buck-hill-52165" rdataFix createdFix strfFix okPages 2 (by decide) (by omega)
      h401⟩

/-! ## Claim C10: zero-iteration fetch loops raise on the empty concat -/

/-- Claim C10: when a paginated fetcher's loop runs zero iterations —
get_all_region_ridelogs with a non-positive page count, or
get_region_ridecounts on a region whose reported total ride count is 0 —
the operation raises pandas' ValueError from concatenating an empty list
of page tables instead of returning an empty table. -/
theorem claim_C10 :
    (∀ (γ α : Type) (region : String) (regions_data : List γ) (created : α → Nat)
        (strf : Nat → String) (page_resp : Nat → Response (List α)) (pages : Int),
      is_valid_region regions_data = true → pages ≤ 0 →
      get_all_region_ridelogs region regions_data created strf page_resp pages =
        ([], .error (.ValueError "No objects to concatenate"))) ∧
    (∀ (γ : Type) (region : String) (regions_data : List γ)
        (info : Response RegionInfoData) (page_resp : Nat → Response (List Nat)),
      is_valid_region regions_data = true → info.status_code ≠ 401 →
      info.data.ridden = 0 →
      get_region_ridecounts region regions_data info page_resp =
        ([], .error (.ValueError "No objects to concatenate"))) := by
  constructor
  · intro γ α region regions_data created strf page_resp pages hv hp
    simp only [get_all_region_ridelogs, check_region_ok region regions_data hv]
    have h0 : pages.toNat = 0 := by omega
    rw [h0]
    simp [ridelogsLoop, pd_concat]
  · intro γ region regions_data info page_resp hv hinfo hrid
    simp only [get_region_ridecounts, check_region_ok region regions_data hv,
      get_region_info_ok region regions_data info hv hinfo]
    rw [hrid, ridecountsLoop, dif_neg (by omega)]
    simp [pd_concat]

/-- Witness for claim C10 at pages = 0 and at a region with zero reported
rides. -/
theorem claim_C10_witness :
    get_all_region_ridelogs "buck-hill-52165" rdataFix createdFix strfFix okPages 0 =
      ([], .error (.ValueError "No objects to concatenate")) ∧
    get_region_ridecounts "buck-hill-52165" rdataFix infoZero okPages =
      ([], .error (.ValueError "No objects to concatenate")) := by
  exact ⟨claim_C10.1 Nat Nat "buck-hill-52165" rdataFix createdFix strfFix okPages 0
      (by decide) (by omega),
    claim_C10.2 Nat "buck-hill-52165" rdataFix infoZero okPages (by decide) (by decide)
      (by decide)⟩

/-! ## Claim C1: location parsing -/

/-- Claim C1: for every free-text location string scraped from the profile
page, the (city, state, country) parse follows exactly these rules: a
two-part comma split gives (first part, second part, "USA"); a three-part
split gives (first part, "unknown", third part) with the middle part
discarded; any other part count (a parsing exception after the failed
two-part split) leaves city and country at the default "unknown" and puts
the raw stripped string in state; and a missing location element gives
("unknown", "unknown", "unknown").  Parts are whitespace-stripped as in the
source. -/
theorem claim_C1 :
    (__get_user_city_state_country none = ("unknown", "unknown", "unknown")) ∧
    (∀ s city state, splitOnComma (pystrip s.data) = [city, state] →
      __get_user_city_state_country (some s) =
        (String.mk (pystrip city), String.mk (pystrip state), "USA")) ∧
    (∀ s city mid country, splitOnComma (pystrip s.data) = [city, mid, country] →
      __get_user_city_state_country (some s) =
        (String.mk (pystrip city), "unknown", String.mk (pystrip country))) ∧
    (∀ s, (splitOnComma (pystrip s.data)).length ≠ 2 →
      (splitOnComma (pystrip s.data)).length ≠ 3 →
      __get_user_city_state_country (some s) =
        ("unknown", String.mk (pystrip s.data), "unknown")) := by
  refine ⟨rfl, ?_, ?_, ?_⟩
  · intro s city state h
    simp only [__get_user_city_state_country, h, unpack2]
  · intro s city mid country h
    simp only [__get_user_city_state_country, h, unpack2, unpack3]
  · intro s h2 h3
    simp only [__get_user_city_state_country, unpack2_err _ h2, unpack3_err _ h3]

/-- Witness for claim C1 at the spec's own examples. -/
theorem claim_C1_witness :
    splitOnComma (pystrip "Minneapolis, MN".data) = ["Minneapolis".data, " MN".data] ∧
    __get_user_city_state_country (some "Minneapolis, MN") = ("Minneapolis", "MN", "USA") := by
  constructor
  · decide
  · rw [claim_C1.2.1 "Minneapolis, MN" "Minneapolis".data " MN".data (by decide)]
    decide

/-! ## Claim C5: ride-id extraction -/

theorem viewPattern_facts (ds : List Char) (h8 : ds.length = 8) :
    ('v' :: 'i' :: 'e' :: 'w' :: '/' :: (ds ++ ['/'])).length = 14 ∧
    ('v' :: 'i' :: 'e' :: 'w' :: '/' :: (ds ++ ['/'])).take 5 = ['v', 'i', 'e', 'w', '/'] ∧
    ('v' :: 'i' :: 'e' :: 'w' :: '/' :: (ds ++ ['/'])).drop 13 = ['/'] ∧
    (('v' :: 'i' :: 'e' :: 'w' :: '/' :: (ds ++ ['/'])).drop 5).take 8 = ds := by
  refine ⟨by simp [h8], rfl, ?_, ?_⟩
  · have h : ('v' :: 'i' :: 'e' :: 'w' :: '/' :: (ds ++ ['/'])).drop 13 = (ds ++ ['/']).drop 8 := rfl
    rw [h, ← h8, List.drop_left]
  · have h : ('v' :: 'i' :: 'e' :: 'w' :: '/' :: (ds ++ ['/'])).drop 5 = ds ++ ['/'] := rfl
    rw [h, ← h8, List.take_left]

theorem matchHere_some_iff (cs : List Char) (d : String) :
    matchHere cs = some d ↔
      ∃ ds, cs = 'v' :: 'i' :: 'e' :: 'w' :: '/' :: (ds ++ ['/']) ∧
        ds.length = 8 ∧ (∀ c ∈ ds, c.isDigit = true) ∧ d = String.mk ds := by
  unfold matchHere
  split
  case isTrue h =>
    obtain ⟨hlen, htake, hdrop, hdig⟩ := h
    constructor
    · intro hd
      injection hd with hd
      refine ⟨(cs.drop 5).take 8, ?_, ?_, hdig, hd.symm⟩
      · have h5 : cs = cs.take 5 ++ cs.drop 5 := (List.take_append_drop 5 cs).symm
        have h58 : cs.drop 5 = (cs.drop 5).take 8 ++ (cs.drop 5).drop 8 :=
          (List.take_append_drop 8 (cs.drop 5)).symm
        have hdd : (cs.drop 5).drop 8 = cs.drop 13 := by rw [List.drop_drop]
        rw [hdd, hdrop] at h58
        rw [htake, h58] at h5
        simpa using h5
      · simp [List.length_take, List.length_drop, hlen]
    · rintro ⟨ds, hcs, h8, _, hd⟩
      have hds : (cs.drop 5).take 8 = ds := by
        rw [hcs]
        exact (viewPattern_facts ds h8).2.2.2
      rw [hds, hd]
  case isFalse h =>
    constructor
    · intro hcontra
      cases hcontra
    · rintro ⟨ds, hcs, h8, hdig, _⟩
      exfalso
      apply h
      obtain ⟨f1, f2, f3, f4⟩ := viewPattern_facts ds h8
      rw [hcs]
      exact ⟨f1, f2, f3, by rw [f4]; exact hdig⟩

theorem searchRideId_some_iff (cs : List Char) (d : String) :
    searchRideId cs = some d ↔ RideLinkSpec cs d := by
  unfold RideLinkSpec
  induction cs with
  | nil =>
    constructor
    · intro h
      cases h
    · rintro ⟨pre, ds, hcs, h8, -, -⟩
      exfalso
      have hl := congrArg List.length hcs
      simp [h8] at hl
  | cons c rest ih =>
    simp only [searchRideId]
    cases hmh : matchHere (c :: rest) with
    | some m =>
      constructor
      · intro hd
        injection hd with hd
        obtain ⟨ds, hcs, h8, hdig, hm⟩ := (matchHere_some_iff _ _).mp hmh
        exact ⟨[], ds, by simpa using hcs, h8, hdig, by rw [← hd, hm]⟩
      · rintro ⟨pre, ds, hcs, h8, hdig, hd⟩
        obtain ⟨ds0, hcs0, h80, hdig0, hm⟩ := (matchHere_some_iff _ _).mp hmh
        have hl := congrArg List.length hcs
        have hl0 := congrArg List.length hcs0
        simp [h8] at hl
        simp [h80] at hl0
        have hpre : pre = [] := List.length_eq_zero.mp (by omega)
        subst hpre
        simp only [List.nil_append] at hcs
        rw [hcs] at hcs0
        have htail : ds ++ ['/'] = ds0 ++ ['/'] := by
          injection hcs0 with _ h1
          injection h1 with _ h2
          injection h2 with _ h3
          injection h3 with _ h4
          injection h4 with _ h5
        have hds : ds = ds0 := List.append_cancel_right htail
        rw [hd, hm, hds]
    | none =>
      rw [ih]
      constructor
      · rintro ⟨pre, ds, hcs, h8, hdig, hd⟩
        exact ⟨c :: pre, ds, by rw [List.cons_append, ← hcs], h8, hdig, hd⟩
      · rintro ⟨pre, ds, hcs, h8, hdig, hd⟩
        cases pre with
        | nil =>
          exfalso
          have hsome : matchHere (c :: rest) = some (String.mk ds) :=
            (matchHere_some_iff _ _).mpr ⟨ds, by simpa using hcs, h8, hdig, rfl⟩
          rw [hmh] at hsome
          cases hsome
        | cons c2 pre2 =>
          rw [List.cons_append] at hcs
          injection hcs with h1 h2
          exact ⟨pre2, ds, h2, h8, hdig, hd⟩

theorem parse_eq_filterMap (links : List String) :
    _parse_ride_ids links = links.filterMap (fun l => searchRideId l.data) := by
  induction links with
  | nil => rfl
  | cons l rest ih =>
    simp only [_parse_ride_ids, List.filterMap_cons]
    cases h : searchRideId l.data <;> simp [h, ih]

/-- Claim C5: the ride-id extraction keeps, in input order, exactly the
captured eight-digit groups of the links that end in "view/", eight
digits and "/" (the fixed pattern anchored at the end of the link); any
link not matching is silently dropped — no error is raised, the
non-matching links just do not contribute — so the id list may be shorter
than the link list. -/
theorem claim_C5 (links : List String) :
    _parse_ride_ids links = links.filterMap (fun l : String => searchRideId l.data) ∧
    (∀ (l : String) (d : String), searchRideId l.data = some d ↔ RideLinkSpec l.data d) ∧
    (_parse_ride_ids links).length ≤ links.length := by
  refine ⟨parse_eq_filterMap links, fun l d => searchRideId_some_iff l.data d, ?_⟩
  rw [parse_eq_filterMap links]
  exact List.length_filterMap_le _ _

/-- Witness for claim C5 at the spec's examples: an eight-digit view link
yields its id, and a non-numeric link is dropped rather than raising. -/
theorem claim_C5_witness :
    _parse_ride_ids ["https://www.trailforks.com/ridelog/view/20367890/",
        "https://www.trailforks.com/ridelog/view/abc/"] = ["20367890"] ∧
    RideLinkSpec "https://www.trailforks.com/ridelog/view/20367890/".data "20367890" := by
  constructor
  · rw [(claim_C5 _).1]
    decide
  · exact (claim_C5 []).2.1 "https://www.trailforks.com/ridelog/view/20367890/"
      "20367890" |>.mp (by decide)

/-! ## Claim C6: region validation -/

/-- Claim C6: is_valid_region returns false exactly when the alias-filtered
API query returns zero records and true otherwise; check_region returns
True exactly when is_valid_region holds, and raises the one InvalidRegion
condition exactly when it does not (the model is pure, so there is no
other state to mutate). -/
theorem claim_C6 {γ : Type} (region : String) (r_json_data : List γ) :
    (is_valid_region r_json_data = false ↔ r_json_data.length = 0) ∧
    (check_region region r_json_data = .ok true ↔ is_valid_region r_json_data = true) ∧
    (check_region region r_json_data =
        .error (.InvalidRegion ("[!] " ++ region ++ " is not a valid Trailforks Region.")) ↔
      is_valid_region r_json_data = false) := by
  by_cases h : r_json_data.length = 0
  · have hv : is_valid_region r_json_data = false := by unfold is_valid_region; simp [h]
    refine ⟨by simp [hv, h], ?_, by simp [hv, check_region_err region _ hv]⟩
    rw [check_region_err region _ hv]
    simp [hv]
  · have hv : is_valid_region r_json_data = true := by unfold is_valid_region; simp [h]
    refine ⟨by simp [hv, h], by simp [hv, check_region_ok region _ hv], ?_⟩
    rw [check_region_ok region _ hv]
    simp [hv]

/-! ## Claim C7: per-day grouping of ride counts -/

theorem firstKeys_subset : ∀ l, ∀ x ∈ firstKeys l, x ∈ l := by
  intro l
  induction l using firstKeys.induct with
  | case1 => simp [firstKeys]
  | case2 d rest ih =>
    rw [firstKeys]
    intro x hx
    rcases List.mem_cons.mp hx with h | h
    · simp [h]
    · have := ih x h
      rcases List.mem_filter.mp this with ⟨h1, _⟩
      simp [h1]

theorem firstKeys_mem : ∀ l, ∀ x : Nat, x ∈ firstKeys l ↔ x ∈ l := by
  intro l
  induction l using firstKeys.induct with
  | case1 => simp [firstKeys]
  | case2 d rest ih =>
    intro x
    rw [firstKeys]
    by_cases hxd : x = d
    · simp [hxd]
    · simp only [List.mem_cons, ih x, List.mem_filter]
      simp [hxd]

theorem firstKeys_nodup : ∀ l : List Nat, (firstKeys l).Nodup := by
  intro l
  induction l using firstKeys.induct with
  | case1 => simp [firstKeys]
  | case2 d rest ih =>
    rw [firstKeys]
    refine List.nodup_cons.mpr ⟨?_, ih⟩
    intro hd
    have := firstKeys_subset _ d hd
    rcases List.mem_filter.mp this with ⟨-, h2⟩
    simp at h2

theorem groupCounts_fst (days : List Nat) :
    (groupCounts days).map Prod.fst = firstKeys days := by
  unfold groupCounts
  rw [List.map_map]
  exact List.map_id _

theorem groupCounts_counts (days : List Nat) :
    ∀ p ∈ groupCounts days, p.2 = days.count p.1 := by
  intro p hp
  rcases List.mem_map.mp hp with ⟨d, _, rfl⟩
  rfl

theorem insertDesc_perm (p : Nat × Nat) (l : List (Nat × Nat)) :
    (insertDesc p l).Perm (p :: l) := by
  induction l with
  | nil => exact List.Perm.refl _
  | cons q qs ih =>
    rw [insertDesc]
    split
    · exact List.Perm.refl _
    · exact (ih.cons q).trans (List.Perm.swap p q qs)

theorem insertDesc_sorted (p : Nat × Nat) (l : List (Nat × Nat))
    (hl : l.Pairwise (fun a b => b.1 ≤ a.1)) :
    (insertDesc p l).Pairwise (fun a b => b.1 ≤ a.1) := by
  induction l with
  | nil => simp [insertDesc]
  | cons q qs ih =>
    rw [insertDesc]
    rcases List.pairwise_cons.mp hl with ⟨hq, hqs⟩
    split
    case isTrue h =>
      refine List.pairwise_cons.mpr ⟨?_, hl⟩
      intro x hx
      rcases List.mem_cons.mp hx with rfl | hx2
      · exact h
      · exact le_trans (hq x hx2) h
    case isFalse h =>
      refine List.pairwise_cons.mpr ⟨?_, ih hqs⟩
      intro x hx
      rcases (insertDesc_perm p qs).mem_iff.mp hx with h2
      rcases List.mem_cons.mp h2 with rfl | hx3
      · omega
      · exact hq x hx3

theorem sortDesc_perm (l : List (Nat × Nat)) : (sortDesc l).Perm l := by
  induction l with
  | nil => exact List.Perm.refl _
  | cons p ps ih =>
    rw [sortDesc]
    exact (insertDesc_perm p (sortDesc ps)).trans (ih.cons p)

theorem sortDesc_sorted (l : List (Nat × Nat)) :
    (sortDesc l).Pairwise (fun a b => b.1 ≤ a.1) := by
  induction l with
  | nil => simp [sortDesc]
  | cons p ps ih => exact insertDesc_sorted p (sortDesc ps) ih

theorem ridecounts_table_dates (rows : List Nat) :
    (ridecounts_table rows).map EnrichedRow.date =
      (sortDesc (groupCounts (rows.map dayOf))).map Prod.fst := by
  unfold ridecounts_table
  rw [List.map_map]
  rfl

/-- Claim C7: the ride-counts aggregation groups the concatenated rows by
the calendar day of the event timestamp (day granularity): the returned
table has exactly one row per distinct day observed (no duplicate day,
and a day appears exactly when some row falls on it), the rows are
sorted by day strictly descending, each row's count is the number of
rides on that day, and the derived calendar fields of each row are the
functions of its day value computed by the enrichment step. -/
theorem claim_C7 (rows : List Nat) :
    ((ridecounts_table rows).map EnrichedRow.date).Nodup ∧
    (∀ d, d ∈ (ridecounts_table rows).map EnrichedRow.date ↔ d ∈ rows.map dayOf) ∧
    ((ridecounts_table rows).map EnrichedRow.date).Pairwise (fun a b => b < a) ∧
    (∀ r ∈ ridecounts_table rows, r.rides = (rows.map dayOf).count r.date) ∧
    (∀ r ∈ ridecounts_table rows, r = enrichRow (r.date, r.rides)) := by
  have hperm : (sortDesc (groupCounts (rows.map dayOf))).Perm (groupCounts (rows.map dayOf)) :=
    sortDesc_perm _
  have hkeysperm := hperm.map Prod.fst
  rw [groupCounts_fst] at hkeysperm
  have hnodup : ((ridecounts_table rows).map EnrichedRow.date).Nodup := by
    rw [ridecounts_table_dates]
    exact hkeysperm.nodup_iff.mpr (firstKeys_nodup _)
  refine ⟨hnodup, ?_, ?_, ?_, ?_⟩
  · intro d
    rw [ridecounts_table_dates]
    rw [hkeysperm.mem_iff]
    exact firstKeys_mem _ d
  · rw [ridecounts_table_dates]
    have hsorted := sortDesc_sorted (groupCounts (rows.map dayOf))
    have hkeynodup : ((sortDesc (groupCounts (rows.map dayOf))).map Prod.fst).Nodup := by
      rw [← ridecounts_table_dates]
      exact hnodup
    have hne : (sortDesc (groupCounts (rows.map dayOf))).Pairwise
        (fun a b => a.1 ≠ b.1) := List.pairwise_map.mp hkeynodup
    have := (hsorted.and hne).imp
      (fun hab => lt_of_le_of_ne hab.1 (Ne.symm hab.2))
    exact List.pairwise_map.mpr this
  · intro r hr
    rcases List.mem_map.mp hr with ⟨p, hp, rfl⟩
    have hpg : p ∈ groupCounts (rows.map dayOf) := hperm.subset hp
    have := groupCounts_counts _ p hpg
    simpa [enrichRow] using this
  · intro r hr
    rcases List.mem_map.mp hr with ⟨p, _, rfl⟩
    rfl

/-! ## Claim C4: badge rescan -/

/-- Claim C4: rescan_ridelogs_for_badges issues one request per ride id in
list order, returns true exactly when every request returns without
raising, and a raising request stops the iteration: the ids attempted are
the successful prefix plus the failing id, and the result is false. -/
theorem claim_C4 (request : String → Except TFError Unit) (ride_ids : List String) :
    ((rescan_ridelogs_for_badges request ride_ids).2 = true ↔
      ∀ id ∈ ride_ids, exceptOk (request (pystripStr id)) = true) ∧
    ((rescan_ridelogs_for_badges request ride_ids).2 = true →
      (rescan_ridelogs_for_badges request ride_ids).1 = ride_ids) ∧
    (∀ pre bad post, ride_ids = pre ++ bad :: post →
      (∀ id ∈ pre, exceptOk (request (pystripStr id)) = true) →
      exceptOk (request (pystripStr bad)) = false →
      rescan_ridelogs_for_badges request ride_ids = (pre ++ [bad], false)) := by
  refine ⟨?_, ?_, ?_⟩
  · induction ride_ids with
    | nil => simp [rescan_ridelogs_for_badges]
    | cons id rest ih =>
      unfold rescan_ridelogs_for_badges
      cases hreq : request (pystripStr id) with
      | error e => simp [hreq, exceptOk]
      | ok u => simp [hreq, exceptOk, ih]
  · induction ride_ids with
    | nil => simp [rescan_ridelogs_for_badges]
    | cons id rest ih =>
      unfold rescan_ridelogs_for_badges
      cases hreq : request (pystripStr id) with
      | error e => simp
      | ok u =>
        intro hrec
        simp only at hrec
        simp [ih hrec]
  · intro pre
    induction pre generalizing ride_ids with
    | nil =>
      intro bad post hids hpre hbad
      subst hids
      unfold rescan_ridelogs_for_badges
      cases hreq : request (pystripStr bad) with
      | error e => simp [hreq]
      | ok u => rw [hreq] at hbad; simp [exceptOk] at hbad
    | cons a pre ih =>
      intro bad post hids hpre hbad
      subst hids
      have ha : request (pystripStr a) = .ok () := by
        have := hpre a (by simp)
        cases hreq : request (pystripStr a) with
        | error e => rw [hreq] at this; simp [exceptOk] at this
        | ok u => rfl
      have hrec := ih (pre ++ bad :: post) bad post rfl
        (fun id hid => hpre id (by simp [hid])) hbad
      simp only [List.cons_append, rescan_ridelogs_for_badges, ha, hrec]
      simp only [List.append_eq, hrec]

/-- Witness for claim C4 at the spec's example: ids ["1","2","3"] with the
request for "2" raising. -/
theorem claim_C4_witness :
    (∀ id ∈ ["1"], exceptOk (reqFix (pystripStr id)) = true) ∧
    exceptOk (reqFix (pystripStr "2")) = false ∧
    rescan_ridelogs_for_badges reqFix ["1", "2", "3"] = (["1", "2"], false) := by
  refine ⟨by decide, by decide, ?_⟩
  exact (claim_C4 reqFix ["1", "2", "3"]).2.2 ["1"] "2" ["3"] rfl (by decide) (by decide)

/-! ## Claim C9: the data.html side effect of get_user_all_ridelogs -/

/-- Counterexample to claim C9 as stated ("on every call ... writes the
full fetched ridelog-page HTML to data.html"): on a call whose fetched
page parses to no table, pd.read_html raises before the write, so the
file keeps its prior content instead of the fetched HTML. -/
theorem claim_C9_counterexample :
    (get_user_all_ridelogs (α := Nat)
        (fun n => if n = "data.html" then some "stale" else none)
        "fresh-page-html" [] []).1 "data.html" = some "stale" ∧
      ("stale" : String) ≠ "fresh-page-html" := by
  exact ⟨rfl, by decide⟩

/-- Claim C9 (amended): on every call of get_user_all_ridelogs whose
fetched page parses to at least one table (so pd.read_html returns
before the write), the full fetched page HTML is written to the local
file "data.html", overwriting any prior content of that name, and no
other file is touched — a persistent local side effect in addition to
the returned table. -/
theorem claim_C9 {α : Type} (fs : String → Option String) (page_text : String)
    (tables : List (List α)) (ridelog_links : List String)
    (df : List α) (rest : List (List α)) (h : tables = df :: rest) :
    ((get_user_all_ridelogs fs page_text tables ridelog_links).1 "data.html" =
      some page_text) ∧
    (∀ name, name ≠ "data.html" →
      (get_user_all_ridelogs fs page_text tables ridelog_links).1 name = fs name) := by
  subst h
  simp only [get_user_all_ridelogs]
  constructor
  · split
    · split <;> simp
    · simp
  · intro name hname
    split
    · split <;> simp [hname]
    · simp [hname]

/-- Witness for the amended claim C9: with one parsed table, the prior
content of data.html is overwritten by the fetched page and other files
are untouched. -/
theorem claim_C9_witness :
    ((get_user_all_ridelogs (fun n => if n = "data.html" then some "stale" else none)
        "fresh-page-html" [[5]] ["https://www.trailforks.com/ridelog/view/20367890/"]).1
      "data.html" = some "fresh-page-html") ∧
    (∀ name, name ≠ "data.html" →
      (get_user_all_ridelogs (fun n => if n = "data.html" then some "stale" else none)
          "fresh-page-html" [[5]] ["https://www.trailforks.com/ridelog/view/20367890/"]).1
        name = (fun n => if n = "data.html" then some "stale" else none) name) := by
  exact claim_C9 (fun n => if n = "data.html" then some "stale" else none)
    "fresh-page-html" [[5]] ["https://www.trailforks.com/ridelog/view/20367890/"]
    [5] [] rfl

end PyForks
